import Mathlib

/-!
Verification development for the `BaselineModel` pose-estimation module
(`examples/ycb_video/singleview_3d/contrib/models/baseline.py`).

The module is floating-point numeric code; it is embedded here over the
real numbers (idealised exact arithmetic).  The learned layers (the VGG16
extractor with `conv5`/resize, and the `conv6`/`conv7`/`fc8`/
`fc_quaternion`/`fc_translation` trunk) have unknown weights, so they are
abstract function parameters in `Params`; every piece of concrete control
flow and arithmetic of the module (shape assertions, the not-a-number
validity mask, class-slice selection with numpy negative indexing,
quaternion normalisation, translation decoding, the `keep` filtering of
`__call__`, the loss loop and its batch-size division) is embedded
explicitly.  A Python exception (failed `assert`, numpy `IndexError`,
`ZeroDivisionError`) is modelled as `none`.

The helpers of the `objslampp` library (voxelization, `quaternion_matrix`,
`compose_transform`, `average_distance`, `average_distance_l1`, the CAD
database `get_pcd`) are not part of the given source tree; they are
modelled from the spec where a definition is needed, as marked on each.
-/

namespace BaselineModel

/-- A world-space 3-vector. -/
abbrev Vec3 : Type := Fin 3 → ℝ

/-- A per-pixel feature vector: `conv5` projects the backbone features to
16 channels before voxelization. -/
abbrev Feat : Type := Fin 16 → ℝ

/-- A cell of the fixed 32×32×32 voxel grid (`self._voxel_dim = 32`). -/
abbrev Cell : Type := Fin 32 × Fin 32 × Fin 32

/-- The voxelized feature grid (`CXYZ`, C = 16). -/
abbrev Grid16 : Type := Cell → Feat

/-- The content of an occupancy grid array. -/
abbrev OccVal : Type := ℕ → ℕ → ℕ → ℝ

/-- An occupancy grid array: its numpy shape (`shape[1:]` per sample) and
its values. -/
structure OccGrid where
  dims : ℕ × ℕ × ℕ
  val : OccVal

/-- An RGB image array with its numpy shape `(H, W, C)` per sample. -/
structure Rgb where
  H : ℕ
  W : ℕ
  C : ℕ
  px : ℕ → ℕ → ℕ → ℝ

/-- One coordinate of the point-cloud image: `none` models a
not-a-number (no-depth) float, `some x` a finite value. -/
abbrev PCoord : Type := Option ℝ

/-- One sample of a batch: the per-sample slices of the arrays passed to
`BaselineModel.__call__` / `predict`.  `pcd` is the point-cloud image in
row-major pixel order (aligned with the per-pixel feature list). -/
structure Sample where
  class_id : ℤ
  pitch : ℝ
  origin : Vec3
  rgb : Rgb
  pcd : List (Fin 3 → PCoord)
  quaternion_true : Fin 4 → ℝ
  translation_true : Vec3
  grid_target : Option OccGrid
  grid_nontarget : Option OccGrid
  grid_empty : Option OccGrid

/-- The two voxelization policies of the constructor argument. -/
inductive Voxelization : Type
  | average
  | max

/-- Input of the `conv6 … fc8` trunk: the voxelized feature grid, with the
two occupancy channels concatenated when `use_occupancy` is set. -/
abbrev FusedIn : Type := Grid16 × Option (OccVal × OccVal)

/-- The model's configuration and (abstract) learned layers.
`feat` is the composite `extractor → conv5 → resize_images`, giving the
per-pixel 16-channel feature list of an image in row-major pixel order;
`headQ`/`headT` are the composite `conv6 → conv7 → fc8 → fc_quaternion /
fc_translation` after the reshape to `(B, n_fg_class, 4)` resp.
`(B, n_fg_class, 3)`.  `freeze_until` only stops gradients
(`unchain_backward`) and does not affect computed values. -/
structure Params where
  n_fg_class : ℕ
  freeze_until : String
  voxelization : Voxelization
  use_occupancy : Bool
  feat : Rgb → List Feat
  headQ : FusedIn → Fin n_fg_class → Fin 4 → ℝ
  headT : FusedIn → Fin n_fg_class → Fin 3 → ℝ

/-- numpy integer indexing into an axis of length `n`: a negative index
`i` with `-n ≤ i` selects position `n + i`; an index out of
`[-n, n)` raises `IndexError` (modelled as `none`). -/
def npGet {n : ℕ} {α : Type} (t : Fin n → α) (i : ℤ) : Option α :=
  if h : 0 ≤ i ∧ i < (n : ℤ) then
    some (t ⟨i.toNat, by omega⟩)
  else if h' : -(n : ℤ) ≤ i ∧ i < 0 then
    some (t ⟨(i + (n : ℤ)).toNat, by omega⟩)
  else
    none

/-- The mask of `predict`: `mask_i = ~xp.isnan(pcd_i).any(axis=2)` — a
pixel is kept iff none of the three point coordinates is not-a-number. -/
def validPoint (pt : Fin 3 → PCoord) : Bool :=
  decide (∀ i, (pt i).isSome)

/-- The `values`/`points` pair lists of `predict`'s per-sample loop: the
per-pixel features zipped with the point cloud, restricted to the pixels
the validity mask keeps (their coordinates are then actual reals). -/
def maskedPairs (p : Params) (s : Sample) : List (Feat × Vec3) :=
  (((p.feat s.rgb).zip s.pcd).filter fun x => validPoint x.2).map
    fun x => (x.1, fun i => (x.2 i).getD 0)

/-- Modelled from the spec: the voxel cell a 3-D point falls in — the grid
is "anchored at `origin` with cell size `pitch`", so the cell index along
each axis is the integer floor of `(point − origin) / pitch`. -/
noncomputable def voxelIdx (origin : Vec3) (pitch : ℝ) (pt : Vec3) : ℤ × ℤ × ℤ :=
  (Int.floor ((pt 0 - origin 0) / pitch),
   Int.floor ((pt 1 - origin 1) / pitch),
   Int.floor ((pt 2 - origin 2) / pitch))

/-- A grid cell's index triple as integers. -/
def cellIdx (c : Cell) : ℤ × ℤ × ℤ :=
  ((c.1 : ℤ), (c.2.1 : ℤ), (c.2.2 : ℤ))

/-- The feature values scattered into one cell (points mapping outside the
32×32×32 bounds reach no cell: they are dropped). -/
noncomputable def cellValues (pairs : List (Feat × Vec3)) (origin : Vec3)
    (pitch : ℝ) (c : Cell) : List Feat :=
  (pairs.filter fun x => decide (voxelIdx origin pitch x.2 = cellIdx c)).map
    fun x => x.1

/-- Modelled from the spec: the per-cell reduction of
`objslampp.functions.average_voxelization_3d` / `max_voxelization_3d` —
"**average** (mean-pool features whose points fall in the same cell) and
**max** (element-wise max).  Cells receiving no points are zero." -/
noncomputable def aggregate : Voxelization → List Feat → Feat
  | _, [] => fun _ => 0
  | .average, vs => fun ch => (vs.map fun v => v ch).sum / (vs.length : ℝ)
  | .max, v :: vs => fun ch => (vs.map fun w => w ch).foldr max (v ch)

/-- Modelled from the spec: the 3-D scatter-reduce of
`objslampp.functions.average_voxelization_3d` / `max_voxelization_3d`
(`(16, 32, 32, 32)` output per sample). -/
noncomputable def voxelize (mode : Voxelization) (pairs : List (Feat × Vec3))
    (origin : Vec3) (pitch : ℝ) : Grid16 :=
  fun c => aggregate mode (cellValues pairs origin pitch c)

/-- Lines 127–151 of `predict` for one sample: mask invalid points, then
voxelize the surviving (feature, point) pairs. -/
noncomputable def voxelStep (p : Params) (s : Sample) : Grid16 :=
  voxelize p.voxelization (maskedPairs p s) s.origin s.pitch

/-- The input handed to `conv6`: the voxelized features, concatenated with
the `grid_nontarget`/`grid_empty` occupancy channels iff `use_occupancy`. -/
noncomputable def fusedIn (p : Params) (s : Sample) : FusedIn :=
  (voxelStep p s,
   if p.use_occupancy then
     match s.grid_nontarget, s.grid_empty with
     | some gn, some ge => some (gn.val, ge.val)
     | _, _ => none
   else none)

/-- The assertions at the head of `predict`: `assert H == W == 256`,
`assert C == 3`, and — when `use_occupancy` — that both occupancy grids
are present with per-sample shape `(32, 32, 32)` (an absent grid aborts
at the shape access). -/
def checksOk (p : Params) (s : Sample) : Bool :=
  (s.rgb.H == 256 && s.rgb.W == 256) && s.rgb.C == 3 &&
  (!p.use_occupancy ||
    (match s.grid_empty, s.grid_nontarget with
     | some ge, some gn => ge.dims == (32, 32, 32) && gn.dims == (32, 32, 32)
     | _, _ => false))

/-- Lines 163–170 of `predict`: the per-class head outputs, with the slice
of class `fg_class_id = class_id - 1` selected by numpy indexing. -/
noncomputable def selected (p : Params) (s : Sample) :
    Option ((Fin 4 → ℝ) × (Fin 3 → ℝ)) :=
  match npGet (p.headQ (fusedIn p s)) (s.class_id - 1),
        npGet (p.headT (fusedIn p s)) (s.class_id - 1) with
  | some qr, some tr => some (qr, tr)
  | _, _ => none

/-- Line 172: `F.normalize(quaternion, axis=1)` — division by the L2 norm (the
framework's `eps` guard is idealised to exact arithmetic). -/
noncomputable def normalize (v : Fin 4 → ℝ) : Fin 4 → ℝ :=
  fun i => v i / Real.sqrt (∑ j, v j ^ 2)

/-- Line 173 of `predict`:
`translation = origin + translation * pitch[:, None] * self._voxel_dim`. -/
def decodeTranslation (origin : Vec3) (pitch : ℝ) (raw : Fin 3 → ℝ) : Vec3 :=
  fun i => origin i + raw i * pitch * 32

/-- The whole of `BaselineModel.predict` for one sample of the batch: shape assertions,
feature extraction and voxelization, trunk, class-slice selection,
quaternion normalisation and translation decoding. -/
noncomputable def predict1 (p : Params) (s : Sample) :
    Option ((Fin 4 → ℝ) × Vec3) :=
  if checksOk p s then
    (selected p s).map fun y =>
      (normalize y.1, decodeTranslation s.origin s.pitch y.2)
  else
    none

/-- The whole of `BaselineModel.predict` over a batch (every step of `predict` acts on
the samples independently). -/
noncomputable def predict (p : Params) (batch : List Sample) :
    Option (List ((Fin 4 → ℝ) × Vec3)) :=
  batch.mapM (predict1 p)

/-- Modelled from the spec: `objslampp.functions.quaternion_matrix` —
"Converts predicted and ground-truth (quaternion, translation) into 4×4
rigid transforms": the homogeneous rotation matrix of a quaternion
`(w, x, y, z)` (the standard convention; the claims below do not depend
on the convention chosen). -/
def quaternion_matrix (q : Fin 4 → ℝ) : Matrix (Fin 4) (Fin 4) ℝ :=
  !![1 - 2 * (q 2 ^ 2 + q 3 ^ 2), 2 * (q 1 * q 2 - q 3 * q 0),
       2 * (q 1 * q 3 + q 2 * q 0), 0;
     2 * (q 1 * q 2 + q 3 * q 0), 1 - 2 * (q 1 ^ 2 + q 3 ^ 2),
       2 * (q 2 * q 3 - q 1 * q 0), 0;
     2 * (q 1 * q 3 - q 2 * q 0), 2 * (q 2 * q 3 + q 1 * q 0),
       1 - 2 * (q 1 ^ 2 + q 2 ^ 2), 0;
     0, 0, 0, 1]

/-- A rigid transform as `compose_transform` produces it: a rotation block
and a translation. -/
structure RigidT where
  R : Matrix (Fin 3) (Fin 3) ℝ
  t : Vec3

/-- The `[:, :3, :3]` slice of a homogeneous matrix. -/
def rot3 (T : Matrix (Fin 4) (Fin 4) ℝ) : Matrix (Fin 3) (Fin 3) ℝ :=
  fun i j => T i.castSucc j.castSucc

/-- Modelled from the spec: `objslampp.functions.compose_transform` —
assembles the rigid transform from a rotation block `Rs` and a
translation `ts`. -/
def compose_transform (Rs : Matrix (Fin 3) (Fin 3) ℝ) (ts : Vec3) : RigidT :=
  ⟨Rs, ts⟩

/-- The transform both `evaluate` and `loss` build from a (quaternion,
translation) pair (lines 248–255 and 285–293). -/
def transformOf (q : Fin 4 → ℝ) (t : Vec3) : RigidT :=
  compose_transform (rot3 (quaternion_matrix q)) t

/-- A rigid transform applied to a point. -/
noncomputable def applyT (T : RigidT) (x : Vec3) : Vec3 :=
  fun i => (∑ j, T.R i j * x j) + T.t i

/-- Euclidean distance of two 3-D points. -/
noncomputable def l2 (u v : Vec3) : ℝ :=
  Real.sqrt (∑ i, (u i - v i) ^ 2)

/-- Distance from `x` to its nearest neighbour in `ys`. -/
noncomputable def nearest (x : Vec3) (ys : List Vec3) : ℝ :=
  ((ys.map (l2 x)).minimum).untop' 0

/-- Modelled from the spec: `objslampp.metrics.average_distance` on one
sample — "**ADD** = mean nearest-correspondence distance under
ground-truth point ordering; **ADD-S** = mean distance to the nearest
point in the other cloud". -/
noncomputable def average_distance (pcd : List Vec3) (T1 T2 : RigidT) : ℝ × ℝ :=
  ((pcd.map fun x => l2 (applyT T1 x) (applyT T2 x)).sum / (pcd.length : ℝ),
   (pcd.map fun x => nearest (applyT T1 x) (pcd.map (applyT T2))).sum
     / (pcd.length : ℝ))

/-- Modelled from the spec: `objslampp.functions.average_distance_l1` —
the "L1-style average-distance loss between predicted- and
true-transformed CAD point clouds": the mean over the cloud of the L1
distance between the two transformed copies of each point. -/
noncomputable def average_distance_l1 (pcd : List Vec3) (T1 T2 : RigidT) : ℝ :=
  ((pcd.map fun x => ∑ i, |applyT T1 x i - applyT T2 x i|).sum)
    / (pcd.length : ℝ)

/-- One row of the argument arrays shared by `evaluate` and `loss`. -/
structure PoseIn where
  class_id : ℤ
  quaternion_true : Fin 4 → ℝ
  translation_true : Vec3
  quaternion_pred : Fin 4 → ℝ
  translation_pred : Vec3

/-- The observable content of `BaselineModel.evaluate`: the per-sample `(add, add_s)` pairs the
summary reports (the CAD database `get_pcd` is the abstract argument
`db`, keyed by class id). -/
noncomputable def evaluate (db : ℤ → List Vec3) (l : List PoseIn) :
    List (ℝ × ℝ) :=
  l.map fun e =>
    average_distance (db e.class_id)
      (transformOf e.quaternion_true e.translation_true)
      (transformOf e.quaternion_pred e.translation_pred)

/-- The body of `loss`'s per-sample loop (lines 299–305). -/
noncomputable def loss1 (db : ℤ → List Vec3) (e : PoseIn) : ℝ :=
  average_distance_l1 (db e.class_id)
    (transformOf e.quaternion_true e.translation_true)
    (transformOf e.quaternion_pred e.translation_pred)

/-- The method `BaselineModel.loss`: `loss = 0`, the accumulation loop, then
`loss /= batch_size` — on an empty batch the division `0 / 0` raises
`ZeroDivisionError`, modelled as `none`. -/
noncomputable def loss (db : ℤ → List Vec3) (l : List PoseIn) : Option ℝ :=
  if l.length = 0 then none
  else some ((l.foldl (fun acc e => acc + loss1 db e) 0) / (l.length : ℝ))

/-- The method `BaselineModel.__call__`: drop `grid_target`, filter the batch by
`keep = class_id != -1`, short-circuit to a zero loss when nothing is
kept, else predict, evaluate and compute the loss on the kept samples.
The result pairs the returned loss with the `(add, add_s)` values
`evaluate` reports (its only observable effect); the short-circuit
branch returns before `evaluate` runs, so it reports nothing. -/
noncomputable def call (p : Params) (db : ℤ → List Vec3)
    (batch : List Sample) : Option (ℝ × List (ℝ × ℝ)) :=
  let kept := batch.filter fun s => s.class_id != -1
  if kept.length = 0 then some (0, [])
  else
    match predict p kept with
    | none => none
    | some preds =>
      let ins := List.zipWith
        (fun s y => PoseIn.mk s.class_id s.quaternion_true
          s.translation_true y.1 y.2) kept preds
      match loss db ins with
      | none => none
      | some L => some (L, evaluate db ins)

/-! Concrete fixtures for the witness theorems. -/

/-- A well-shaped 256×256×3 black image. -/
def rgbW : Rgb := ⟨256, 256, 3, fun _ _ _ => 0⟩

/-- A concrete model configuration: two foreground classes, constant
heads, no occupancy fusion. -/
def paramsW : Params where
  n_fg_class := 2
  freeze_until := "conv4_3"
  voxelization := Voxelization.max
  use_occupancy := false
  feat := fun _ => []
  headQ := fun _ _ _ => 1
  headT := fun _ _ _ => 1

/-- A concrete sample with a given class id. -/
def sampleW (cid : ℤ) : Sample where
  class_id := cid
  pitch := 1
  origin := fun _ => 0
  rgb := rgbW
  pcd := []
  quaternion_true := fun _ => 0
  translation_true := fun _ => 0
  grid_target := none
  grid_nontarget := none
  grid_empty := none

/-- A concrete pose row whose prediction equals its ground truth. -/
def poseW : PoseIn where
  class_id := 1
  quaternion_true := fun _ => 0
  translation_true := fun _ => 0
  quaternion_pred := fun _ => 0
  translation_pred := fun _ => 0

/-- A sample with a malformed (128×128) image. -/
def sampleBad : Sample :=
  { sampleW 1 with rgb := ⟨128, 128, 3, fun _ _ _ => 0⟩ }

/-- A sample whose only pixel has a fully not-a-number point. -/
def sampleN : Sample := { sampleW 1 with pcd := [fun _ => none] }

/-! Claim theorems. -/

/-- C1: a batch in which every sample has `class_id == -1` short-circuits
`__call__` before prediction, evaluation and the batch-size division: the
returned loss is exactly `0` (and nothing is reported), with no error. -/
theorem call_all_filtered_zero (p : Params) (db : ℤ → List Vec3)
    (batch : List Sample) (h : ∀ s ∈ batch, s.class_id = -1) :
    call p db batch = some (0, []) := by
  have hk : batch.filter (fun s => s.class_id != -1) = [] := by
    rw [List.filter_eq_nil_iff]
    intro a ha
    simp [h a ha]
  unfold call
  simp [hk]

/-- Witness for C1 at a concrete one-sample batch. -/
theorem call_all_filtered_zero_witness :
    (∀ s ∈ [sampleW (-1)], s.class_id = -1) ∧
      call paramsW (fun _ => []) [sampleW (-1)] = some (0, []) :=
  ⟨fun s hs => by simp only [List.mem_singleton] at hs; subst hs; rfl,
   call_all_filtered_zero paramsW (fun _ => []) [sampleW (-1)]
     (fun s hs => by simp only [List.mem_singleton] at hs; subst hs; rfl)⟩

/-- C5: `__call__` filters the samples with `class_id == -1` out of every
input before `predict`, `evaluate` and `loss` run: its result on any
batch equals its result on the kept sub-batch alone. -/
theorem call_filter_equiv (p : Params) (db : ℤ → List Vec3)
    (batch : List Sample) :
    call p db batch =
      call p db (batch.filter fun s => s.class_id != -1) := by
  unfold call
  rw [List.filter_filter]
  simp only [Bool.and_self]

/-- Applying `F.normalize` to a nonzero vector yields a vector of L2 norm 1. -/
theorem normalize_norm_one (v : Fin 4 → ℝ) (hv : v ≠ fun _ => 0) :
    Real.sqrt (∑ i, normalize v i ^ 2) = 1 := by
  have hex : ∃ i, v i ≠ 0 := by
    by_contra hc
    push_neg at hc
    exact hv (funext hc)
  have hS : 0 < ∑ j, v j ^ 2 := by
    obtain ⟨i, hi⟩ := hex
    refine Finset.sum_pos' (fun j _ => sq_nonneg _) ⟨i, Finset.mem_univ i, ?_⟩
    positivity
  have hsq : Real.sqrt (∑ j, v j ^ 2) ^ 2 = ∑ j, v j ^ 2 :=
    Real.sq_sqrt hS.le
  have hsum : (∑ i, normalize v i ^ 2) = 1 := by
    unfold normalize
    have he : ∀ i : Fin 4,
        (v i / Real.sqrt (∑ j, v j ^ 2)) ^ 2 = v i ^ 2 / (∑ j, v j ^ 2) := by
      intro i
      rw [div_pow, hsq]
    rw [Finset.sum_congr rfl fun i _ => he i, ← Finset.sum_div, div_self hS.ne']
  rw [hsum, Real.sqrt_one]

/-- Inversion for `predict1`: a successful prediction is the normalised
selected quaternion slice paired with the decoded translation slice. -/
theorem predict1_eq (p : Params) (s : Sample) (q : Fin 4 → ℝ) (t : Vec3)
    (qr : Fin 4 → ℝ) (tr : Fin 3 → ℝ)
    (h : predict1 p s = some (q, t)) (hsel : selected p s = some (qr, tr)) :
    q = normalize qr ∧ t = decodeTranslation s.origin s.pitch tr := by
  unfold predict1 at h
  by_cases hok : checksOk p s = true
  · rw [if_pos hok, hsel] at h
    simp only [Option.map_some', Option.some.injEq, Prod.mk.injEq] at h
    exact ⟨h.1.symm, h.2.symm⟩
  · rw [if_neg hok] at h
    exact absurd h (by simp)

/-- C2: the quaternion a successful `predict` returns is L2-normalised,
so (idealising the framework's `eps` guard, which needs the raw head
output to be nonzero) its L2 norm is exactly 1. -/
theorem predict_quaternion_unit_norm (p : Params) (s : Sample)
    (q : Fin 4 → ℝ) (t : Vec3) (qr : Fin 4 → ℝ) (tr : Fin 3 → ℝ)
    (h : predict1 p s = some (q, t)) (hsel : selected p s = some (qr, tr))
    (hqr : qr ≠ fun _ => 0) :
    Real.sqrt (∑ i, q i ^ 2) = 1 := by
  obtain ⟨hq, -⟩ := predict1_eq p s q t qr tr h hsel
  rw [hq]
  exact normalize_norm_one qr hqr

/-- Witness for C2 at a concrete configuration with constant heads. -/
theorem predict_quaternion_unit_norm_witness :
    predict1 paramsW (sampleW 1) = some (normalize fun _ => 1,
        decodeTranslation (sampleW 1).origin (sampleW 1).pitch fun _ => 1) ∧
      ((fun _ : Fin 4 => (1 : ℝ)) ≠ fun _ => 0) ∧
      Real.sqrt (∑ i, normalize (fun _ => (1 : ℝ)) i ^ 2) = 1 :=
  ⟨rfl, fun hc => one_ne_zero (congrFun hc 0),
   predict_quaternion_unit_norm paramsW (sampleW 1)
     (normalize fun _ => 1)
     (decodeTranslation (sampleW 1).origin (sampleW 1).pitch fun _ => 1)
     (fun _ => 1) (fun _ => 1) rfl rfl
     (fun hc => one_ne_zero (congrFun hc 0))⟩

/-- C3: the translation a successful `predict` returns is
`origin + raw_offset * pitch * 32` elementwise, and a zero raw offset
recovers `origin` exactly. -/
theorem predict_translation_decode (p : Params) (s : Sample)
    (q : Fin 4 → ℝ) (t : Vec3) (qr : Fin 4 → ℝ) (tr : Fin 3 → ℝ)
    (h : predict1 p s = some (q, t)) (hsel : selected p s = some (qr, tr)) :
    (∀ i, t i = s.origin i + tr i * s.pitch * 32) ∧
      ((tr = fun _ => 0) → t = s.origin) := by
  obtain ⟨-, ht⟩ := predict1_eq p s q t qr tr h hsel
  subst ht
  refine ⟨fun i => rfl, fun h0 => ?_⟩
  subst h0
  funext i
  simp [decodeTranslation]

/-- Witness for C3 at a concrete configuration with constant heads. -/
theorem predict_translation_decode_witness :
    predict1 paramsW (sampleW 1) = some (normalize fun _ => 1,
        decodeTranslation (sampleW 1).origin (sampleW 1).pitch fun _ => 1) ∧
      selected paramsW (sampleW 1) = some (fun _ => 1, fun _ => 1) ∧
      ((∀ i, decodeTranslation (sampleW 1).origin (sampleW 1).pitch
          (fun _ => 1) i =
          (sampleW 1).origin i + 1 * (sampleW 1).pitch * 32) ∧
        (((fun _ : Fin 3 => (1 : ℝ)) = fun _ => (0 : ℝ)) →
          decodeTranslation (sampleW 1).origin (sampleW 1).pitch (fun _ => 1) =
            (sampleW 1).origin)) :=
  ⟨rfl, rfl,
   predict_translation_decode paramsW (sampleW 1)
     (normalize fun _ => 1)
     (decodeTranslation (sampleW 1).origin (sampleW 1).pitch fun _ => 1)
     (fun _ => 1) (fun _ => 1) rfl rfl⟩

/-- numpy indexing at `-1` silently wraps to the last position. -/
theorem npGet_neg_one {n : ℕ} {α : Type} (t : Fin n → α) (hn : 1 ≤ n) :
    npGet t (-1) = some (t ⟨n - 1, by omega⟩) := by
  unfold npGet
  rw [dif_neg (by omega), dif_pos ⟨by omega, by omega⟩]
  apply congrArg
  apply congrArg
  simp only [Fin.mk.injEq]
  omega

/-- C10: calling `predict` directly on a sample with `class_id == 0` does
not fail: the foreground index `class_id - 1 = -1` silently selects the
head slice of the last foreground class, index `n_fg_class - 1`. -/
theorem predict_class_zero_selects_last (p : Params) (s : Sample)
    (hn : 1 ≤ p.n_fg_class) (hc : s.class_id = 0)
    (hok : checksOk p s = true) :
    predict1 p s = some
      (normalize (p.headQ (fusedIn p s) ⟨p.n_fg_class - 1, by omega⟩),
       decodeTranslation s.origin s.pitch
         (p.headT (fusedIn p s) ⟨p.n_fg_class - 1, by omega⟩)) := by
  unfold predict1 selected
  rw [if_pos hok, hc, zero_sub, npGet_neg_one _ hn, npGet_neg_one _ hn]
  rfl

/-- Witness for C10: two foreground classes, a sample with class id 0. -/
theorem predict_class_zero_selects_last_witness :
    1 ≤ paramsW.n_fg_class ∧ (sampleW 0).class_id = 0 ∧
      checksOk paramsW (sampleW 0) = true ∧
      predict1 paramsW (sampleW 0) = some
        (normalize (paramsW.headQ (fusedIn paramsW (sampleW 0))
            ⟨paramsW.n_fg_class - 1, by decide⟩),
         decodeTranslation (sampleW 0).origin (sampleW 0).pitch
           (paramsW.headT (fusedIn paramsW (sampleW 0))
             ⟨paramsW.n_fg_class - 1, by decide⟩)) :=
  ⟨by decide, rfl, rfl,
   predict_class_zero_selects_last paramsW (sampleW 0) (by decide) rfl rfl⟩

/-- The shape assertions of `predict` as a proposition. -/
theorem checksOk_iff (p : Params) (s : Sample) :
    checksOk p s = true ↔
      (s.rgb.H = 256 ∧ s.rgb.W = 256 ∧ s.rgb.C = 3) ∧
      (p.use_occupancy = true →
        ∃ ge gn, s.grid_empty = some ge ∧ s.grid_nontarget = some gn ∧
          ge.dims = (32, 32, 32) ∧ gn.dims = (32, 32, 32)) := by
  unfold checksOk
  cases hge : s.grid_empty <;> cases hgn : s.grid_nontarget <;>
    cases hu : p.use_occupancy <;>
      simp_all [Bool.and_eq_true, beq_iff_eq, and_assoc]

/-- C7: a batch whose rgb image is not 256×256 with 3 channels — or, when
occupancy fusion is enabled, whose occupancy grids are absent or not of
per-sample shape 32×32×32 — makes `predict` abort (failed assertion)
rather than return a value. -/
theorem predict_shape_assert (p : Params) (s : Sample)
    (h : ¬(s.rgb.H = 256 ∧ s.rgb.W = 256 ∧ s.rgb.C = 3) ∨
      (p.use_occupancy = true ∧
        ¬∃ ge gn, s.grid_empty = some ge ∧ s.grid_nontarget = some gn ∧
          ge.dims = (32, 32, 32) ∧ gn.dims = (32, 32, 32))) :
    predict1 p s = none := by
  have hok : ¬checksOk p s = true := by
    rw [checksOk_iff]
    rintro ⟨hsh, hocc⟩
    rcases h with hbad | ⟨hu, hg⟩
    · exact hbad hsh
    · exact hg (hocc hu)
  unfold predict1
  rw [if_neg hok]

/-- Witness for C7 at a sample whose image is 128×128. -/
theorem predict_shape_assert_witness :
    (¬(sampleBad.rgb.H = 256 ∧ sampleBad.rgb.W = 256 ∧
        sampleBad.rgb.C = 3) ∨
      (paramsW.use_occupancy = true ∧
        ¬∃ ge gn, sampleBad.grid_empty = some ge ∧
          sampleBad.grid_nontarget = some gn ∧
          ge.dims = (32, 32, 32) ∧ gn.dims = (32, 32, 32))) ∧
      predict1 paramsW sampleBad = none :=
  ⟨Or.inl (by decide),
   predict_shape_assert paramsW sampleBad (Or.inl (by decide))⟩

/-- C6: on a non-empty kept batch, the returned loss is the arithmetic
mean over the batch of the per-sample L1 average-distance between the
class's CAD cloud transformed by the true pose and by the predicted
pose. -/
theorem loss_is_mean (db : ℤ → List Vec3) (l : List PoseIn) (h : l ≠ []) :
    loss db l = some ((l.map fun e =>
      average_distance_l1 (db e.class_id)
        (transformOf e.quaternion_true e.translation_true)
        (transformOf e.quaternion_pred e.translation_pred)).sum /
      (l.length : ℝ)) := by
  unfold loss
  rw [if_neg (by simpa using h)]
  apply congrArg
  apply congrArg (fun r => r / (l.length : ℝ))
  rw [List.sum_eq_foldl, List.foldl_map]
  rfl

/-- Witness for C6 at a concrete one-row batch. -/
theorem loss_is_mean_witness :
    [poseW] ≠ [] ∧
      loss (fun _ => []) [poseW] = some (([poseW].map fun e =>
        average_distance_l1 ((fun _ : ℤ => ([] : List Vec3)) e.class_id)
          (transformOf e.quaternion_true e.translation_true)
          (transformOf e.quaternion_pred e.translation_pred)).sum /
        (([poseW].length : ℕ) : ℝ)) :=
  ⟨by simp, loss_is_mean (fun _ => []) [poseW] (by simp)⟩

/-- Euclidean distances are nonnegative. -/
theorem l2_nonneg (u v : Vec3) : 0 ≤ l2 u v :=
  Real.sqrt_nonneg _

/-- The distance of a point to itself is 0. -/
theorem l2_self (u : Vec3) : l2 u u = 0 := by
  unfold l2
  simp

/-- ADD-S of any non-empty cloud under two equal transforms is exactly
0: every transformed point's nearest neighbour in the identically
transformed cloud is itself. -/
theorem add_s_self (pcd : List Vec3) (T : RigidT) (_h : pcd ≠ []) :
    (average_distance pcd T T).2 = 0 := by
  unfold average_distance
  simp only
  have hz : ∀ x ∈ pcd, nearest (applyT T x) (pcd.map (applyT T)) = 0 := by
    intro x hx
    unfold nearest
    have h0 : ((pcd.map (applyT T)).map (l2 (applyT T x))).minimum =
        ((0 : ℝ) : WithTop ℝ) := by
      rw [List.minimum_eq_coe_iff]
      constructor
      · have hm : l2 (applyT T x) (applyT T x) ∈
            (pcd.map (applyT T)).map (l2 (applyT T x)) :=
          List.mem_map_of_mem _ (List.mem_map_of_mem _ hx)
        rwa [l2_self] at hm
      · intro a ha
        obtain ⟨y, hy, rfl⟩ := List.mem_map.mp ha
        exact l2_nonneg _ _
    rw [h0]
    rfl
  have hmap : (pcd.map fun x => nearest (applyT T x) (pcd.map (applyT T))) =
      pcd.map fun _ => (0 : ℝ) := List.map_congr_left hz
  rw [hmap]
  simp

/-- C8: when the predicted (quaternion, translation) equals the
ground-truth one on every row, every ADD-S value `evaluate` computes is
exactly 0 (each CAD cloud being non-empty). -/
theorem evaluate_add_s_zero (db : ℤ → List Vec3) (l : List PoseIn)
    (h : ∀ e ∈ l, e.quaternion_pred = e.quaternion_true ∧
      e.translation_pred = e.translation_true ∧ db e.class_id ≠ []) :
    ∀ y ∈ evaluate db l, y.2 = 0 := by
  intro y hy
  unfold evaluate at hy
  obtain ⟨e, he, rfl⟩ := List.mem_map.mp hy
  obtain ⟨hq, ht, hne⟩ := h e he
  rw [hq, ht]
  exact add_s_self _ _ hne

/-- Witness for C8 at a concrete one-row batch over a one-point cloud. -/
theorem evaluate_add_s_zero_witness :
    (∀ e ∈ [poseW], e.quaternion_pred = e.quaternion_true ∧
      e.translation_pred = e.translation_true ∧
      (fun _ : ℤ => [fun _ : Fin 3 => (0 : ℝ)]) e.class_id ≠ []) ∧
    ∀ y ∈ evaluate (fun _ => [fun _ => 0]) [poseW], y.2 = 0 :=
  ⟨fun e he => by
      simp only [List.mem_singleton] at he
      subst he
      exact ⟨rfl, rfl, by simp⟩,
   evaluate_add_s_zero (fun _ => [fun _ => 0]) [poseW] fun e he => by
      simp only [List.mem_singleton] at he
      subst he
      exact ⟨rfl, rfl, by simp⟩⟩

/-- A point with a not-a-number coordinate fails the validity mask. -/
theorem validPoint_eq_false (pt : Fin 3 → PCoord) (h : ∃ i, pt i = none) :
    validPoint pt = false := by
  obtain ⟨i, hi⟩ := h
  unfold validPoint
  rw [decide_eq_false_iff_not]
  intro hall
  have hv := hall i
  rw [hi] at hv
  simp at hv

/-- Pairs whose second component fails the mask and sits past the end of
the zip contribute nothing to the filtered zip. -/
theorem zip_filter_append {α β : Type} (v : β → Bool) (f : List α)
    (ps qs : List β) (hqs : ∀ q ∈ qs, v q = false) :
    ((f.zip (ps ++ qs)).filter fun x => v x.2) =
      (f.zip ps).filter fun x => v x.2 := by
  induction ps generalizing f with
  | nil =>
    rw [List.nil_append, List.zip_nil_right, List.filter_nil,
      List.filter_eq_nil_iff]
    intro a ha
    have h2 := (List.of_mem_zip ha).2
    simp [hqs _ h2]
  | cons b ps ih =>
    cases f with
    | nil => rfl
    | cons a f =>
      rw [List.cons_append, List.zip_cons_cons, List.zip_cons_cons,
        List.filter_cons, List.filter_cons, ih f]

/-- C4: pixels whose point-cloud coordinate contains a not-a-number in
any component are excluded by the validity mask before voxelization —
the masked pair list, and with it every cell of the 32×32×32 grid, is
unchanged by their presence. -/
theorem voxelize_ignores_nan_points (p : Params) (s : Sample)
    (ps qs : List (Fin 3 → PCoord)) (hpcd : s.pcd = ps ++ qs)
    (hqs : ∀ pt ∈ qs, ∃ i, pt i = none) :
    maskedPairs p s = maskedPairs p { s with pcd := ps } ∧
      ∀ c : Cell, voxelStep p s c = voxelStep p { s with pcd := ps } c := by
  have hm : maskedPairs p s = maskedPairs p { s with pcd := ps } := by
    unfold maskedPairs
    rw [hpcd]
    apply congrArg
    exact zip_filter_append _ _ _ _
      fun q hq => validPoint_eq_false q (hqs q hq)
  refine ⟨hm, fun c => ?_⟩
  unfold voxelStep
  rw [hm]

/-- Witness for C4: one all-not-a-number pixel appended to an empty pixel
list leaves the masked pairs and the whole grid unchanged. -/
theorem voxelize_ignores_nan_points_witness :
    sampleN.pcd = [] ++ [fun _ => none] ∧
      (∀ pt ∈ [fun _ : Fin 3 => (none : PCoord)], ∃ i, pt i = none) ∧
      (maskedPairs paramsW sampleN =
          maskedPairs paramsW { sampleN with pcd := [] } ∧
        ∀ c : Cell, voxelStep paramsW sampleN c =
          voxelStep paramsW { sampleN with pcd := [] } c) :=
  ⟨rfl,
   fun pt hpt => by
     simp only [List.mem_singleton] at hpt
     subst hpt
     exact ⟨0, rfl⟩,
   voxelize_ignores_nan_points paramsW sampleN [] [fun _ => none] rfl
     fun pt hpt => by
       simp only [List.mem_singleton] at hpt
       subst hpt
       exact ⟨0, rfl⟩⟩

/-- Per-sample prediction reads nothing from `grid_target`. -/
theorem predict1_grid_target (p : Params) (g : Sample → Option OccGrid)
    (s : Sample) :
    predict1 p { s with grid_target := g s } = predict1 p s := rfl

/-- Monadic map over `Option` after a plain `map`. -/
theorem mapM_map_option {α β γ : Type} (u : α → β) (f : β → Option γ) :
    ∀ l : List α, (l.map u).mapM f = l.mapM fun a => f (u a)
  | [] => rfl
  | a :: t => by
    simp only [List.map_cons, List.mapM_cons, mapM_map_option u f t]

/-- C9: `grid_target` is accepted and discarded: two calls whose inputs
differ only in the `grid_target` grids return the identical result. -/
theorem call_ignores_grid_target (p : Params) (db : ℤ → List Vec3)
    (batch : List Sample) (g : Sample → Option OccGrid) :
    call p db (batch.map fun s => { s with grid_target := g s }) =
      call p db batch := by
  have hcomp : ((fun s : Sample => s.class_id != -1) ∘
      fun s => { s with grid_target := g s }) =
      fun s : Sample => s.class_id != -1 := rfl
  have hpred : predict p ((batch.filter fun s => s.class_id != -1).map
      fun s => { s with grid_target := g s }) =
      predict p (batch.filter fun s => s.class_id != -1) := by
    unfold predict
    rw [mapM_map_option]
    have hfun : (fun a : Sample => predict1 p { a with grid_target := g a }) =
        predict1 p := funext fun a => predict1_grid_target p g a
    rw [hfun]
  simp only [call, List.filter_map, hcomp, List.length_map, hpred,
    List.zipWith_map_left]

end BaselineModel
